import Mathlib

/-!
Verification of the Bitcoin price dashboard pipeline
(`SEDS_Lab11/bitcoin/app.py` and `SEDS_Lab11/bitcoin/ml.py`).

The two scripts are straight-line Streamlit programs.  We shallowly embed
the data they manipulate and the library operations they invoke:

* dates and POSIX timestamps become `Int` (days / seconds since epoch);
* price values become `ℚ` (the scripts only add, subtract, multiply and
  divide, so rationals model the arithmetic exactly);
* a pandas `DataFrame` produced by `yf.download` followed by
  `reset_index` becomes a `List Bar` together with the derived columns
  appended later by the script;
* the outcome of the external `yf.download` call (which is not part of
  this repository) is an explicit input `Except String (List Bar)`:
  either raw daily bars or a transport error;
* Streamlit rendering calls (`st.error`, `st.warning`, …) become message
  lists in an explicit script state.
-/

/-- Column names of the fetched DataFrame.  `yf.download` yields the
OHLCV columns with a datetime index that `reset_index` turns into the
`Date` column; the script later appends derived columns named `SMA_w`. -/
inductive ColName where
  | Date
  | Open
  | High
  | Low
  | Close
  | Volume
  | SMA (w : Nat)
deriving DecidableEq, Repr

/-- One daily OHLCV bar, a row of the fetched DataFrame
(the `Date` column is the trading day, as days since epoch). -/
structure Bar where
  Date : Int
  Open : ℚ
  High : ℚ
  Low : ℚ
  Close : ℚ
  Volume : ℚ
deriving DecidableEq, Repr

/-- Embedding of `series.rolling(window=w).mean()` (pandas), as used at
`app.py:113-114` on the `Close` column.  With the default
`min_periods = window`, position `i` holds the mean of the `w` values
ending at `i` when a full window is available (`w ≤ i + 1`) and is `NaN`
(here `none`) otherwise. -/
def rollingMean (xs : List ℚ) (w : Nat) : List (Option ℚ) :=
  (List.range xs.length).map (fun i =>
    if w ≤ i + 1 then some (((xs.drop (i + 1 - w)).take w).sum / (w : ℚ))
    else none)

/-- Ten close prices: the concrete series of the 10-row scenario. -/
def demoSeries : List ℚ := [1, 2, 3, 4, 5, 6, 7, 8, 9, 10]

/-- Embedding of `fetch_bitcoin_data` (`app.py:40-50`, identical in
`ml.py:33-43`).  The external `yf.download("BTC-USD", start, end)` call
is not part of this repository; its outcome is the explicit argument
`download`: `Except.ok bars` for a successful download of raw daily bars
(possibly empty), `Except.error msg` for a raised transport exception.
The `try/except` makes the function total — both failure shapes return
an empty DataFrame (here `[]`) instead of re-raising — and the second
component collects the `st.error` messages the function displays.
`reset_index` only moves the date index into the `Date` column, which a
`Bar` already carries; it does not reorder or drop rows. -/
def fetch_bitcoin_data (start_date end_date : Int)
    (download : Except String (List Bar)) : List Bar × List String :=
  match download with
  | Except.ok bars => if bars = [] then ([], []) else (bars, [])
  | Except.error e => ([], ["Error fetching data: " ++ e])

/-- State of the DataFrame after fetch: OHLCV rows plus the derived
columns the script has appended so far (column name and aligned values;
`none` is `NaN`).  The row index is the `RangeIndex 0 … n-1` left by
`reset_index`. -/
structure PipelineFrame where
  bars : List Bar
  derived : List (ColName × List (Option ℚ))
deriving Repr

/-- Embedding of `data[f"SMA_w"] = data["Close"].rolling(window=w).mean()`
(`app.py:113-114`): appends one derived column to the frame. -/
def addSMA (f : PipelineFrame) (w : Nat) : PipelineFrame :=
  { bars := f.bars
    derived := f.derived ++ [(ColName.SMA w, rollingMean (f.bars.map Bar.Close) w)] }

/-- Columns that `data.corr()` operates on (`app.py:97`): pandas Pearson
correlation restricts to numeric columns, which excludes the datetime
`Date` column and includes every float column present at call time. -/
def numericColumns (f : PipelineFrame) : List ColName :=
  [ColName.Open, ColName.High, ColName.Low, ColName.Close, ColName.Volume]
    ++ f.derived.map Prod.fst

/-- Rendering of a column name in the CSV header. -/
def renderColName : ColName → String
  | ColName.Date => "Date"
  | ColName.Open => "Open"
  | ColName.High => "High"
  | ColName.Low => "Low"
  | ColName.Close => "Close"
  | ColName.Volume => "Volume"
  | ColName.SMA w => "SMA_" ++ toString w

/-- Rendering of one CSV cell holding a possibly missing float: a defined
value is printed, `NaN` prints as the empty cell (pandas `to_csv` default
`na_rep=""`). -/
def renderCell : Option ℚ → String
  | some q => toString q
  | none => ""

/-- All columns of the frame in their physical order: the OHLCV columns
as fetched (with `Date` first after `reset_index`), then the derived
columns in computation order. -/
def frameColumns (f : PipelineFrame) : List ColName :=
  [ColName.Date, ColName.Open, ColName.High, ColName.Low, ColName.Close,
    ColName.Volume] ++ f.derived.map Prod.fst

/-- Embedding of `data.to_csv()` (`app.py:130`) as the list of CSV rows,
each a list of cells.  The pandas default `index=True` writes the
RangeIndex as an unnamed first column: the header row starts with an
empty cell and every data row starts with the row number.  One data row
is emitted per input row — `NaN` cells are written empty, never
dropped. -/
def csvRows (f : PipelineFrame) : List (List String) :=
  ("" :: (frameColumns f).map renderColName)
    :: f.bars.enum.map (fun p =>
      [toString p.1, toString p.2.Date, toString p.2.Open, toString p.2.High,
        toString p.2.Low, toString p.2.Close, toString p.2.Volume]
        ++ f.derived.map (fun c => renderCell (c.2.getD p.1 none)))

/-- Exported text of `data.to_csv()`: rows joined with commas, lines
terminated by newlines; `.encode("utf-8")` then yields the UTF-8 bytes of
exactly this string. -/
def to_csv (f : PipelineFrame) : String :=
  String.join ((csvRows f).map (fun cells => String.intercalate "," cells ++ "\n"))

/-- Observable state of one top-to-bottom run of the `app.py` script:
messages rendered, how many times `fetch_bitcoin_data` was invoked, the
fetched data, and the artifact of each downstream stage (`none` when the
stage did not run because the data was empty). -/
structure AppState where
  sidebar_errors : List String
  errors : List String
  fetch_calls : Nat
  data : List Bar
  corr_columns : Option (List ColName)
  derived_names : List ColName
  csv_lines : Option (List (List String))
deriving Repr

/-- Embedding of the `app.py` script body (lines 31-131).  The script is
straight-line: the `start_date > end_date` check at line 35 only renders
a sidebar error, after which `fetch_bitcoin_data` is called
unconditionally at line 52.  On empty data the script renders an error
and runs no further stage; otherwise it computes `data.corr()` at line
97 BEFORE appending the two SMA columns at lines 113-114, and finally
serializes the augmented frame at line 130. -/
def run_app (start_date end_date : Int) (download : Except String (List Bar))
    (short_window long_window : Nat) : AppState :=
  let sidebar_errors :=
    if start_date > end_date then ["Start date must be before end date."] else []
  let fetched := fetch_bitcoin_data start_date end_date download
  let data := fetched.1
  if data = [] then
    { sidebar_errors := sidebar_errors
      errors := fetched.2
        ++ ["No data found for the selected range. Try adjusting the dates."]
      fetch_calls := 1
      data := []
      corr_columns := none
      derived_names := []
      csv_lines := none }
  else
    let frame0 : PipelineFrame := ⟨data, []⟩
    let correlation_matrix_cols := numericColumns frame0
    let frame2 := addSMA (addSMA frame0 short_window) long_window
    { sidebar_errors := sidebar_errors
      errors := fetched.2
      fetch_calls := 1
      data := data
      corr_columns := some correlation_matrix_cols
      derived_names := frame2.derived.map Prod.fst
      csv_lines := some (csvRows frame2) }

/-- A concrete bar on day 1. -/
def bar1 : Bar := ⟨1, 10, 11, 9, 10, 100⟩

/-- A concrete bar on day 2. -/
def bar2 : Bar := ⟨2, 12, 13, 11, 12, 200⟩

/-- A concrete one-row frame carrying one SMA column whose single value
is `NaN`. -/
def demoFrame : PipelineFrame := ⟨[bar1], [(ColName.SMA 2, [none])]⟩

/-- Embedding of the future-timestamp construction at `ml.py:109`:
`[(datetime.now() + timedelta(days=i)).timestamp() for i in range(future_days)]`.
`now` is the wall-clock anchor in POSIX seconds; `timedelta(days=i)` adds
exactly `i` days of 86400 seconds. -/
def future_timestamps (now : Int) (future_days : Nat) : List Int :=
  (List.range future_days).map (fun (i : Nat) => now + (i : Int) * 86400)

/-- Prediction of the fitted single-feature linear model on one timestamp
(`model.predict` at `ml.py:110`): `slope · t + intercept`. -/
def predict (slope intercept : ℚ) (ts : Int) : ℚ :=
  slope * ts + intercept

/-- Embedding of the `future_data` frame built at `ml.py:112-115`: one
`(Date, Predicted Price)` row per future timestamp, dates recovered by
`datetime.fromtimestamp`. -/
def future_data (slope intercept : ℚ) (now : Int) (future_days : Nat) :
    List (Int × ℚ) :=
  (future_timestamps now future_days).map (fun ts => (ts, predict slope intercept ts))

/-- Embedding of `sklearn.metrics.mean_squared_error` as called at
`ml.py:100`: the average of squared residuals between the held-out
targets and the predictions of the model. -/
def mean_squared_error (y_true y_pred : List ℚ) : ℚ :=
  (((y_true.zip y_pred).map (fun p => (p.1 - p.2) ^ 2)).sum) / (y_true.length : ℚ)

/-- Embedding of `sklearn.metrics.r2_score` as called at `ml.py:101`:
the coefficient of determination `1 - SS_res / SS_tot`.  When the target
is constant (`SS_tot = 0`) sklearn returns `1.0` for a perfect fit and
`0.0` otherwise. -/
def r2_score (y_true y_pred : List ℚ) : ℚ :=
  let ss_res := ((y_true.zip y_pred).map (fun p => (p.1 - p.2) ^ 2)).sum
  let y_mean := y_true.sum / (y_true.length : ℚ)
  let ss_tot := (y_true.map (fun v => (v - y_mean) ^ 2)).sum
  if ss_tot = 0 then (if ss_res = 0 then 1 else 0) else 1 - ss_res / ss_tot

/-- One step of a linear congruential generator, modelling the
deterministic pseudo-random stream that the seeded NumPy generator inside
`train_test_split` produces: everything downstream depends only on the
seed. -/
def lcg (s : Nat) : Nat := (1103515245 * s + 12345) % 2 ^ 31

/-- Deterministic Fisher-Yates-style draw of a permutation of the pool,
driven by the seeded stream: the model of `rng.permutation(n)`. -/
def drawAll : Nat → Nat → List Nat → List Nat
  | 0, _, _ => []
  | n + 1, s, pool =>
    let s2 := lcg s
    let k := s2 % (n + 1)
    pool.getD k 0 :: drawAll n s2 (pool.eraseIdx k)

/-- Embedding of `sklearn.model_selection.train_test_split` as called at
`ml.py:90` with `test_size=0.2, random_state=42`.  sklearn shuffles the
row indices with a PRNG seeded by `random_state` when one is given and by
ambient OS entropy otherwise (modelled by the extra `entropy` argument),
takes the first `ceil(n · test_size)` shuffled indices as the test
partition and the rest as the training partition, and selects the rows.
Returns `((X_train, X_test), (y_train, y_test))`. -/
def train_test_split (X y : List ℚ) (test_size : ℚ) (random_state : Option Nat)
    (entropy : Nat) : (List ℚ × List ℚ) × (List ℚ × List ℚ) :=
  let seed := random_state.getD entropy
  let n := X.length
  let n_test := (⌈(n : ℚ) * test_size⌉).toNat
  let perm := drawAll n seed (List.range n)
  let test_idx := perm.take n_test
  let train_idx := perm.drop n_test
  ((train_idx.map (fun i => X.getD i 0), test_idx.map (fun i => X.getD i 0)),
    (train_idx.map (fun i => y.getD i 0), test_idx.map (fun i => y.getD i 0)))

theorem rollingMean_length (xs : List ℚ) (w : Nat) :
    (rollingMean xs w).length = xs.length := by
  simp [rollingMean]

theorem take_sum_eq_range (l : List ℚ) :
    ∀ w, w ≤ l.length → (l.take w).sum = ∑ j ∈ Finset.range w, l.getD j 0 := by
  induction l with
  | nil =>
    intro w hw
    simp [Nat.le_zero.mp hw]
  | cons x t ih =>
    intro w hw
    cases w with
    | zero => simp
    | succ k =>
      rw [List.take_succ_cons, List.sum_cons, ih k (by simpa using hw),
        Finset.sum_range_succ']
      simp only [List.getD_cons_succ, List.getD_cons_zero]
      ring

theorem drop_take_sum_eq_range (xs : List ℚ) (a w : Nat) (h : a + w ≤ xs.length) :
    ((xs.drop a).take w).sum = ∑ j ∈ Finset.range w, xs.getD (a + j) 0 := by
  rw [take_sum_eq_range (xs.drop a) w (by simp; omega)]
  refine Finset.sum_congr rfl fun j hj => ?_
  rw [List.getD_eq_getElem?_getD, List.getD_eq_getElem?_getD, List.getElem?_drop]

/-- Claim C6 — the rolling mean with window 1 is the identity transform
on the source column, position by position:
`series.rolling(window=1).mean()` returns the column itself, with every
entry defined. -/
theorem rollingMean_one (xs : List ℚ) :
    rollingMean xs 1 = xs.map some := by
  apply List.ext_getElem
  · simp [rollingMean]
  · intro i h1 h2
    simp only [rollingMean, List.getElem_map, List.getElem_range]
    have hi : i < xs.length := by
      simpa [rollingMean] using h1
    rw [Nat.add_sub_cancel, List.drop_eq_getElem_cons hi, List.take_succ_cons,
      List.take_zero]
    simp

/-- Claim C7 — for a series of length `n` and window `W ≥ 1`:
the derived column has the same length as the input (rows are never
dropped); positions `0 … W-2` are undefined (`NaN`, here `none`), never
backfilled; every position `i ≥ W-1` equals the arithmetic mean of the
source values at positions `i-W+1 … i`; and if `W > n` the entire column
is undefined. -/
theorem rollingMean_window_spec (xs : List ℚ) (w : Nat) (hw : 1 ≤ w) :
    (rollingMean xs w).length = xs.length ∧
    (∀ i, i < xs.length → i + 1 < w → (rollingMean xs w)[i]? = some none) ∧
    (∀ i, i < xs.length → w ≤ i + 1 →
      (rollingMean xs w)[i]? =
        some (some ((∑ j ∈ Finset.range w, xs.getD (i + 1 - w + j) 0) / (w : ℚ)))) ∧
    (xs.length < w → ∀ o ∈ rollingMean xs w, o = none) := by
  refine ⟨rollingMean_length xs w, ?_, ?_, ?_⟩
  · intro i hi hlt
    simp [rollingMean, List.getElem?_map, hi, Nat.lt_irrefl]
    omega
  · intro i hi hle
    have hsum : ((xs.drop (i + 1 - w)).take w).sum
        = ∑ j ∈ Finset.range w, xs.getD (i + 1 - w + j) 0 := by
      apply drop_take_sum_eq_range
      omega
    simp [rollingMean, List.getElem?_map, hi, hle, hsum]
  · intro hlen o ho
    simp only [rollingMean, List.mem_map, List.mem_range] at ho
    obtain ⟨i, hi, rfl⟩ := ho
    have : ¬ w ≤ i + 1 := by omega
    simp [this]

theorem rollingMean_window_spec_witness :
    1 ≤ 5 ∧
    ((rollingMean demoSeries 5).length = demoSeries.length ∧
    (∀ i, i < demoSeries.length → i + 1 < 5 →
      (rollingMean demoSeries 5)[i]? = some none) ∧
    (∀ i, i < demoSeries.length → 5 ≤ i + 1 →
      (rollingMean demoSeries 5)[i]? =
        some (some ((∑ j ∈ Finset.range 5, demoSeries.getD (i + 1 - 5 + j) 0)
          / (5 : ℚ)))) ∧
    (demoSeries.length < 5 → ∀ o ∈ rollingMean demoSeries 5, o = none)) :=
  ⟨by decide, rollingMean_window_spec demoSeries 5 (by decide)⟩

/-- Claim C1, counterexample — with `start = 1 > 0 = end` the script
still invokes `fetch_bitcoin_data`: the validation error is rendered, but
the fetch-call count of the run is `1`, not `0`. -/
theorem validation_does_not_gate_fetch :
    (1 : Int) > 0 ∧
    (run_app 1 0 (Except.ok [bar1]) 20 100).sidebar_errors
      = ["Start date must be before end date."] ∧
    (run_app 1 0 (Except.ok [bar1]) 20 100).fetch_calls = 1 := by
  refine ⟨by norm_num, ?_, ?_⟩ <;> rfl

/-- Claim C1, amended — for every `start > end` the script renders the
user-visible validation message, but `fetch_bitcoin_data` is nevertheless
invoked, exactly once and unconditionally: the validation check does not
gate the fetch. -/
theorem validation_error_but_fetch_still_called
    (start_date end_date : Int) (download : Except String (List Bar))
    (short_window long_window : Nat) (h : start_date > end_date) :
    (run_app start_date end_date download short_window long_window).sidebar_errors
      = ["Start date must be before end date."] ∧
    (run_app start_date end_date download short_window long_window).fetch_calls
      = 1 := by
  unfold run_app
  dsimp only
  split <;> simp [h]

theorem validation_error_but_fetch_still_called_witness :
    (1 : Int) > 0 ∧
    ((run_app 1 0 (Except.ok [bar1]) 20 100).sidebar_errors
        = ["Start date must be before end date."] ∧
      (run_app 1 0 (Except.ok [bar1]) 20 100).fetch_calls = 1) :=
  ⟨by norm_num,
    validation_error_but_fetch_still_called 1 0 (Except.ok [bar1]) 20 100
      (by norm_num)⟩

/-- Claim C2, counterexample — for the valid range `0 ≤ 10`, when the raw
download returns bars out of date order, `fetch_bitcoin_data` returns
them unchanged: the result has dates `[2, 1]`, not strictly ascending.
The fetcher performs no normalization and no deduplication. -/
theorem fetch_not_normalizing :
    (0 : Int) ≤ 10 ∧
    (fetch_bitcoin_data 0 10 (Except.ok [bar2, bar1])).1.map Bar.Date = [2, 1] ∧
    ¬ List.Chain' (· < ·)
        ((fetch_bitcoin_data 0 10 (Except.ok [bar2, bar1])).1.map Bar.Date) := by
  have h2 : (fetch_bitcoin_data 0 10 (Except.ok [bar2, bar1])).1.map Bar.Date
      = [2, 1] := rfl
  refine ⟨by norm_num, h2, ?_⟩
  rw [h2]
  norm_num [List.chain'_cons]

/-- Claim C2, amended — `fetch_bitcoin_data` passes a successful nonempty
download through unchanged (no sorting, no deduplication, no range
filtering): the returned series has strictly ascending (hence pairwise
unique) dates lying within `[start, end]` exactly when the raw
downloaded bars already do. -/
theorem fetch_passthrough (start_date end_date : Int) (bars : List Bar)
    (hne : bars ≠ []) :
    (fetch_bitcoin_data start_date end_date (Except.ok bars)).1 = bars ∧
    ((List.Chain' (fun a b => a.Date < b.Date)
        (fetch_bitcoin_data start_date end_date (Except.ok bars)).1 ∧
      ∀ b ∈ (fetch_bitcoin_data start_date end_date (Except.ok bars)).1,
        start_date ≤ b.Date ∧ b.Date ≤ end_date) ↔
     (List.Chain' (fun a b => a.Date < b.Date) bars ∧
      ∀ b ∈ bars, start_date ≤ b.Date ∧ b.Date ≤ end_date)) := by
  have hpass : (fetch_bitcoin_data start_date end_date (Except.ok bars)).1 = bars := by
    simp [fetch_bitcoin_data, hne]
  exact ⟨hpass, by rw [hpass]⟩

theorem fetch_passthrough_witness :
    ([bar1, bar2] : List Bar) ≠ [] ∧
    ((fetch_bitcoin_data 0 10 (Except.ok [bar1, bar2])).1 = [bar1, bar2] ∧
    ((List.Chain' (fun a b => a.Date < b.Date)
        (fetch_bitcoin_data 0 10 (Except.ok [bar1, bar2])).1 ∧
      ∀ b ∈ (fetch_bitcoin_data 0 10 (Except.ok [bar1, bar2])).1,
        (0 : Int) ≤ b.Date ∧ b.Date ≤ 10) ↔
     (List.Chain' (fun a b => a.Date < b.Date) ([bar1, bar2] : List Bar) ∧
      ∀ b ∈ ([bar1, bar2] : List Bar), (0 : Int) ≤ b.Date ∧ b.Date ≤ 10))) :=
  ⟨by decide, fetch_passthrough 0 10 [bar1, bar2] (by decide)⟩

/-- Claim C3, counterexample — `data.to_csv()` keeps the pandas default
`index=True`: for a one-row frame with one SMA column the exported header
row reads `,Date,Open,High,Low,Close,Volume,SMA_2` (a leading empty cell
for the row index), which differs from the claimed exact header
`Date,Open,High,Low,Close,Volume,SMA_2`. -/
theorem to_csv_header_has_index_cell :
    String.intercalate "," ((csvRows demoFrame).headD [])
      = ",Date,Open,High,Low,Close,Volume,SMA_2" ∧
    (",Date,Open,High,Low,Close,Volume,SMA_2" : String)
      ≠ "Date,Open,High,Low,Close,Volume,SMA_2" := by
  exact ⟨rfl, by decide⟩

/-- Claim C3, amended — the export is comma-separated UTF-8 text whose
header row is the claimed `Date,Open,High,Low,Close,Volume` followed by
the SMA names in computation order, but prefixed by an empty cell for the
pandas row index; the data-row count equals the input series length,
every data row carries one index cell plus one cell per column, and
`NaN` cells are emitted as the empty cell, never dropped. -/
theorem to_csv_shape (f : PipelineFrame) :
    (csvRows f).length = f.bars.length + 1 ∧
    (csvRows f).head? = some ("" :: "Date" :: "Open" :: "High" :: "Low" :: "Close"
      :: "Volume" :: f.derived.map (fun c => renderColName c.1)) ∧
    (∀ row ∈ (csvRows f).tail, row.length = 7 + f.derived.length) ∧
    renderCell none = "" := by
  refine ⟨by simp [csvRows], by simp [csvRows, frameColumns, renderColName], ?_, rfl⟩
  intro row hrow
  simp only [csvRows, List.tail_cons, List.mem_map] at hrow
  obtain ⟨p, hp, rfl⟩ := hrow
  simp [List.length_append]
  omega

/-- Claim C4 — the `try/except` of the fetcher lets no exception escape:
a zero-bar download and a raised transport error both yield the same
typed empty series (`pd.DataFrame()`, here `[]`), and the script then
takes the no-data branch — every downstream stage is skipped with an
empty artifact and renders the no-data warning instead of raising. -/
theorem fetch_degrades_to_empty (start_date end_date : Int)
    (download : Except String (List Bar)) (short_window long_window : Nat)
    (h : download = Except.ok [] ∨ ∃ msg, download = Except.error msg) :
    (fetch_bitcoin_data start_date end_date download).1 = [] ∧
    (run_app start_date end_date download short_window long_window).data = [] ∧
    (run_app start_date end_date download short_window long_window).corr_columns
      = none ∧
    (run_app start_date end_date download short_window long_window).csv_lines
      = none ∧
    "No data found for the selected range. Try adjusting the dates."
      ∈ (run_app start_date end_date download short_window long_window).errors := by
  have hempty : (fetch_bitcoin_data start_date end_date download).1 = [] := by
    obtain rfl | ⟨msg, rfl⟩ := h <;> simp [fetch_bitcoin_data]
  refine ⟨hempty, ?_⟩
  unfold run_app
  dsimp only
  rw [if_pos hempty]
  simp

theorem fetch_degrades_to_empty_witness :
    ((Except.error "boom" : Except String (List Bar)) = Except.ok [] ∨
      ∃ msg, (Except.error "boom" : Except String (List Bar)) = Except.error msg) ∧
    ((fetch_bitcoin_data 0 10 (Except.error "boom")).1 = [] ∧
    (run_app 0 10 (Except.error "boom") 20 100).data = [] ∧
    (run_app 0 10 (Except.error "boom") 20 100).corr_columns = none ∧
    (run_app 0 10 (Except.error "boom") 20 100).csv_lines = none ∧
    "No data found for the selected range. Try adjusting the dates."
      ∈ (run_app 0 10 (Except.error "boom") 20 100).errors) :=
  ⟨Or.inr ⟨"boom", rfl⟩,
    fetch_degrades_to_empty 0 10 (Except.error "boom") 20 100 (Or.inr ⟨"boom", rfl⟩)⟩

/-- Claim C10 — `data.corr()` at `app.py:97` runs before the SMA columns
are appended at `app.py:113-114`: for every nonempty fetched series the
column set of the correlation matrix is exactly the numeric OHLCV columns
(`Date` is excluded as non-numeric), the run appends exactly the two SMA
columns afterwards, and no derived SMA column occurs in the correlation
columns. -/
theorem corr_before_sma (start_date end_date : Int) (bars : List Bar)
    (short_window long_window : Nat) (hne : bars ≠ []) :
    (run_app start_date end_date (Except.ok bars) short_window long_window).corr_columns
      = some [ColName.Open, ColName.High, ColName.Low, ColName.Close,
          ColName.Volume] ∧
    (run_app start_date end_date (Except.ok bars) short_window long_window).derived_names
      = [ColName.SMA short_window, ColName.SMA long_window] ∧
    ∀ c ∈ (run_app start_date end_date (Except.ok bars)
        short_window long_window).derived_names,
      c ∉ [ColName.Open, ColName.High, ColName.Low, ColName.Close,
          ColName.Volume] := by
  have hpass : (fetch_bitcoin_data start_date end_date (Except.ok bars)).1 = bars := by
    simp [fetch_bitcoin_data, hne]
  unfold run_app
  dsimp only
  rw [hpass, if_neg hne]
  refine ⟨by simp [numericColumns], by simp [addSMA], ?_⟩
  intro c hc
  simp [addSMA] at hc
  rcases hc with rfl | rfl <;> simp

theorem corr_before_sma_witness :
    ([bar1] : List Bar) ≠ [] ∧
    ((run_app 0 10 (Except.ok [bar1]) 20 100).corr_columns
      = some [ColName.Open, ColName.High, ColName.Low, ColName.Close,
          ColName.Volume] ∧
    (run_app 0 10 (Except.ok [bar1]) 20 100).derived_names
      = [ColName.SMA 20, ColName.SMA 100] ∧
    ∀ c ∈ (run_app 0 10 (Except.ok [bar1]) 20 100).derived_names,
      c ∉ [ColName.Open, ColName.High, ColName.Low, ColName.Close,
          ColName.Volume]) :=
  ⟨by decide, corr_before_sma 0 10 [bar1] 20 100 (by decide)⟩

theorem future_data_dates (slope intercept : ℚ) (now : Int) (N : Nat) :
    (future_data slope intercept now N).map Prod.fst = future_timestamps now N := by
  have hcomp : (Prod.fst ∘ fun ts : Int => (ts, predict slope intercept ts)) = id := rfl
  rw [future_data, List.map_map, hcomp, List.map_id]

theorem future_timestamps_length (now : Int) (N : Nat) :
    (future_timestamps now N).length = N := by
  rw [future_timestamps, List.length_map, List.length_range]

theorem future_timestamps_getElem (now : Int) (N i : Nat)
    (h : i < (future_timestamps now N).length) :
    (future_timestamps now N)[i] = now + (i : Int) * 86400 := by
  simp only [future_timestamps, List.getElem_map, List.getElem_range]

theorem future_timestamps_lookup (now : Int) (N i : Nat) (h : i < N) :
    (future_timestamps now N)[i]? = some (now + (i : Int) * 86400) := by
  have hl : i < (future_timestamps now N).length := by
    rw [future_timestamps_length]
    exact h
  rw [List.getElem?_eq_getElem hl, future_timestamps_getElem now N i hl]

/-- Claim C5 — for every trained model, every horizon `N ≥ 1` and the
chosen anchor: the forecast table has exactly `N` rows, the first row has
the anchor as its date, and consecutive dates step by exactly one day
(86400 seconds), hence are strictly increasing. -/
theorem forecast_points_spec (slope intercept : ℚ) (now : Int) (N : Nat)
    (hN : 1 ≤ N) :
    (future_data slope intercept now N).length = N ∧
    ((future_data slope intercept now N).map Prod.fst).head? = some now ∧
    (∀ i, i + 1 < N →
      ((future_data slope intercept now N).map Prod.fst)[i + 1]?
        = (((future_data slope intercept now N).map Prod.fst)[i]?).map
            (· + 86400)) ∧
    List.Chain' (· < ·) ((future_data slope intercept now N).map Prod.fst) := by
  rw [future_data_dates]
  refine ⟨?_, ?_, ?_, ?_⟩
  · rw [future_data, List.length_map, future_timestamps_length]
  · rw [List.head?_eq_getElem?, future_timestamps_lookup now N 0 (by omega)]
    norm_num
  · intro i hi
    rw [future_timestamps_lookup now N (i + 1) hi,
      future_timestamps_lookup now N i (by omega)]
    rw [Option.map_some']
    congr 1
    push_cast
    ring
  · rw [List.chain'_iff_get]
    intro i hi
    rw [future_timestamps_length] at hi
    have b1 : i < (future_timestamps now N).length := by
      rw [future_timestamps_length]
      omega
    have b2 : i + 1 < (future_timestamps now N).length := by
      rw [future_timestamps_length]
      omega
    simp only [List.get_eq_getElem]
    rw [future_timestamps_getElem now N i b1,
      future_timestamps_getElem now N (i + 1) b2]
    push_cast
    omega

theorem forecast_points_spec_witness :
    1 ≤ 7 ∧
    ((future_data 1 0 1000 7).length = 7 ∧
    ((future_data 1 0 1000 7).map Prod.fst).head? = some 1000 ∧
    (∀ i, i + 1 < 7 →
      ((future_data 1 0 1000 7).map Prod.fst)[i + 1]?
        = (((future_data 1 0 1000 7).map Prod.fst)[i]?).map (· + 86400)) ∧
    List.Chain' (· < ·) ((future_data 1 0 1000 7).map Prod.fst)) :=
  ⟨by decide, forecast_points_spec 1 0 1000 7 (by decide)⟩

theorem sum_sq_nonneg (l : List ℚ) (f : ℚ → ℚ) :
    0 ≤ (l.map (fun v => (f v) ^ 2)).sum := by
  apply List.sum_nonneg
  intro x hx
  simp only [List.mem_map] at hx
  obtain ⟨v, hv, rfl⟩ := hx
  positivity

theorem sum_sq_pairs_nonneg (l : List (ℚ × ℚ)) :
    0 ≤ (l.map (fun p => (p.1 - p.2) ^ 2)).sum := by
  apply List.sum_nonneg
  intro x hx
  simp only [List.mem_map] at hx
  obtain ⟨v, hv, rfl⟩ := hx
  positivity

/-- Claim C8 — for every model and every non-empty held-out test
partition: `mse ≥ 0` and `r2 ≤ 1`, and a negative `r2` is a possible,
valid outcome (witnessed by a concrete partition where the fit is worse
than predicting the mean). -/
theorem metrics_bounds (y_true y_pred : List ℚ) (hne : y_true ≠ []) :
    0 ≤ mean_squared_error y_true y_pred ∧
    r2_score y_true y_pred ≤ 1 ∧
    ∃ yt yp, r2_score yt yp < 0 := by
  refine ⟨?_, ?_, ⟨[0, 2], [10, 10], by norm_num [r2_score]⟩⟩
  · apply div_nonneg (sum_sq_pairs_nonneg _)
    positivity
  · rw [r2_score]
    dsimp only
    split
    · split
      · exact le_refl 1
      · norm_num
    · rename_i htot
      have hres : 0 ≤ ((y_true.zip y_pred).map (fun p => (p.1 - p.2) ^ 2)).sum :=
        sum_sq_pairs_nonneg _
      have htot2 : 0 ≤ (y_true.map
          (fun v => (v - y_true.sum / (y_true.length : ℚ)) ^ 2)).sum :=
        sum_sq_nonneg _ _
      have : 0 ≤ ((y_true.zip y_pred).map (fun p => (p.1 - p.2) ^ 2)).sum
          / (y_true.map (fun v => (v - y_true.sum / (y_true.length : ℚ)) ^ 2)).sum :=
        div_nonneg hres htot2
      linarith

theorem metrics_bounds_witness :
    ([1, 2] : List ℚ) ≠ [] ∧
    (0 ≤ mean_squared_error [1, 2] [1, 3] ∧
    r2_score [1, 2] [1, 3] ≤ 1 ∧
    ∃ yt yp, r2_score yt yp < 0) :=
  ⟨by decide, metrics_bounds [1, 2] [1, 3] (by decide)⟩

/-- Claim C9 — the split at `ml.py:90` passes the fixed
`random_state=42`, so the partition is a function of the feature matrix,
the target vector, the test fraction and the seed alone: two runs on
equal inputs with the same seed yield identical `(train, test)`
partitions, whatever ambient entropy either run would otherwise have
drawn. -/
theorem train_test_split_deterministic (X y : List ℚ) (test_size : ℚ)
    (seed entropy1 entropy2 : Nat) :
    train_test_split X y test_size (some seed) entropy1
      = train_test_split X y test_size (some seed) entropy2 := rfl
